import Mathlib

/-!
Verification development for the financial-disclosures ingest pipeline
(`src/lambda/ingest.py`) and its search collaborator (`src/lambda/search.py`).

The Python source is shallowly embedded: every function is translated into an
executable Lean definition operating on `String` / `List Char`, exceptions are
modelled with `Option` / `Except`, and the external stores (S3 object writes,
DynamoDB batch writes, the query table) are modelled as explicit parameters
(oracles / state-threading functions).  All recursion is structural (or fuelled)
so concrete instances reduce inside the kernel.
-/

set_option maxRecDepth 8192

namespace FinDisclosures

/-! ## Basic string utilities (models of the Python primitives used) -/

/-- ASCII whitespace recognised by Python's `str.strip()` / `\s`
(the non-ASCII Unicode whitespace accepted by Python is not modelled;
no input in this development uses it). -/
def isPySpace (c : Char) : Bool :=
  c = ' ' || c = '\t' || c = '\n' || c = '\r' || c = '\x0b' || c = '\x0c'

/-- Model of `str.strip()` on a character list. -/
def pyStripList (l : List Char) : List Char :=
  ((l.dropWhile isPySpace).reverse.dropWhile isPySpace).reverse

/-- Model of Python `str.strip()`. -/
def pyStrip (s : String) : String :=
  String.mk (pyStripList s.data)

/-- Digits-prefix span: `(takeWhile isDigit, dropWhile isDigit)`. -/
def digitsSpan (l : List Char) : List Char × List Char :=
  (l.takeWhile Char.isDigit, l.dropWhile Char.isDigit)

/-- Numeric value of a list of ASCII digit characters. -/
def natOfDigits (l : List Char) : Nat :=
  l.foldl (fun acc c => acc * 10 + (c.toNat - 48)) 0

/-- Decimal digit character for `d < 10`. -/
def digitChar (d : Nat) : Char :=
  Char.ofNat (48 + d)

/-- Decimal digits of `n` (most significant first); fuelled so that it is
structural and kernel-reducible.  `fuel` must exceed the digit count. -/
def natDigitsAux : Nat → Nat → List Char
  | 0, _ => []
  | fuel + 1, n =>
    if n < 10 then [digitChar n]
    else natDigitsAux fuel (n / 10) ++ [digitChar (n % 10)]

/-- Decimal representation of a natural number (model of Python `str(int)`). -/
def natRepr (n : Nat) : String :=
  String.mk (natDigitsAux (n + 1) n)

/-- Two-digit zero-padded decimal representation. -/
def pad2 (n : Nat) : String :=
  if n < 10 then "0" ++ natRepr n else natRepr n

/-- Four-digit zero-padded decimal representation. -/
def pad4 (n : Nat) : String :=
  if n < 10 then "000" ++ natRepr n
  else if n < 100 then "00" ++ natRepr n
  else if n < 1000 then "0" ++ natRepr n
  else natRepr n

/-- Remove every occurrence of a character (model of `str.replace(c, "")`). -/
def removeAllChar (c : Char) (l : List Char) : List Char :=
  l.filter (fun x => !(x = c))

/-- Optional sign: returns `(isNegative, rest)`. -/
def takeSign : List Char → Bool × List Char
  | '-' :: rest => (true, rest)
  | '+' :: rest => (false, rest)
  | l => (false, l)

/-! ## PiiMasker: `mask_ssn`, `mask_email` (ingest.py lines 35-48) -/

/-- Python slice `s[-4:]`: the last (at most) four characters; total. -/
def takeLastN (n : Nat) (l : List Char) : List Char :=
  l.drop (l.length - n)

/-- `mask_ssn(ssn)`: `"***-**-" + ssn[-4:]`.  Every primitive used by the
source (slice, concatenation) is total, so the function has no error path. -/
def maskSsn (s : String) : String :=
  "***-**-" ++ String.mk (takeLastN 4 s.data)

/-- Split at the first `'@'` (model of `email.split("@", 1)`): `none` when the
separator is absent, i.e. when the split yields a single-element list and the
two-variable unpacking in the source raises `ValueError`. -/
def splitFirstAt : List Char → Option (List Char × List Char)
  | [] => none
  | c :: cs =>
    if c = '@' then some ([], cs)
    else
      match splitFirstAt cs with
      | none => none
      | some (u, d) => some (c :: u, d)

/-- The `try:` body of `mask_email`: raises (`Except.error`) exactly when the
unpacking `user, domain = email.split("@", 1)` fails. -/
def maskEmailRaw (s : String) : Except Unit String :=
  match splitFirstAt s.data with
  | none => Except.error ()
  | some (u, d) =>
    match u with
    | [] => Except.ok ("***@" ++ String.mk d)
    | c :: _ => Except.ok (String.mk [c] ++ "***@" ++ String.mk d)

/-- `mask_email(email)`: the `try/except` wrapper falls back to `"***"`. -/
def maskEmail (s : String) : String :=
  match maskEmailRaw s with
  | Except.ok r => r
  | Except.error _ => "***"

/-! ## Model of Python floats as used by `parse_amount` (ingest.py lines 57-63)

`float(a)` is modelled by exact decimal values `(sign, mantissa, scale)` with
value `(-1)^sign * mantissa * 10^scale`, plus the special values `inf`,
`-inf` and `nan` which `float()` also accepts.  Binary rounding of the decimal
literal to an IEEE double is not modelled (it never changes the sign, the
specialness, or the `\d+\.\d{2}` shape of the `:.2f` rendering, which is all
the claims depend on); decimal literals whose magnitude overflows the double
range become `inf` as in CPython, and literals far below the subnormal range
collapse to (signed) zero. -/

inductive PyFloat where
  | finite (neg : Bool) (m : Nat) (scale : Int)
  | inf
  | neginf
  | nan
deriving DecidableEq

/-- Number of decimal digits of `m`. -/
def numDigits (m : Nat) : Nat :=
  (natDigitsAux (m + 1) m).length

/-- Overflow threshold: decimal values with magnitude at or above
`2^1024 - 2^970` round to infinity when converted to an IEEE double. -/
def ovfT : Nat := 2 ^ 1024 - 2 ^ 970

/-- Does `m * 10^sc` reach the double-overflow threshold? -/
def overflows (m : Nat) (sc : Int) : Bool :=
  if 0 ≤ sc then decide (ovfT ≤ m * 10 ^ sc.toNat)
  else decide (ovfT * 10 ^ (-sc).toNat ≤ m)

/-- Build the `PyFloat` denoted by sign/mantissa/scale, applying the
double-range clamps described above. -/
def mkFinite (neg : Bool) (m : Nat) (sc : Int) : PyFloat :=
  if m = 0 then PyFloat.finite neg 0 0
  else if (numDigits m : Int) + sc ≤ -340 then PyFloat.finite neg 0 0
  else if 311 ≤ (numDigits m : Int) + sc then
    (if neg then PyFloat.neginf else PyFloat.inf)
  else if overflows m sc then (if neg then PyFloat.neginf else PyFloat.inf)
  else PyFloat.finite neg m sc

/-- Exponent part of a float literal: `[sign] digits` with nothing after. -/
def parseExp (t : List Char) : Option Int :=
  let p := takeSign t
  let d := digitsSpan p.2
  if d.1.isEmpty || !d.2.isEmpty then none
  else some (if p.1 then -(natOfDigits d.1 : Int) else (natOfDigits d.1 : Int))

/-- Case-insensitive keyword comparison. -/
def lowerEq (l : List Char) (w : List Char) : Bool :=
  l.map Char.toLower = w

/-- Model of the builtin `float(str)`: strip whitespace, optional sign, then
`inf`/`infinity`/`nan` or `digits [. digits] [(e|E) [sign] digits]`.
(`_` digit separators and non-ASCII digits are not modelled.)
`none` models `ValueError`. -/
def pyFloatOfString (s : String) : Option PyFloat :=
  let l := pyStripList s.data
  let sg := takeSign l
  if lowerEq sg.2 ['i', 'n', 'f'] || lowerEq sg.2 ['i', 'n', 'f', 'i', 'n', 'i', 't', 'y'] then
    some (if sg.1 then PyFloat.neginf else PyFloat.inf)
  else if lowerEq sg.2 ['n', 'a', 'n'] then some PyFloat.nan
  else
    let d1 := digitsSpan sg.2
    let fr : List Char × List Char :=
      match d1.2 with
      | '.' :: t => digitsSpan t
      | _ => ([], [])
    let r2 : List Char :=
      match d1.2 with
      | '.' :: _ => fr.2
      | _ => d1.2
    if d1.1.isEmpty && fr.1.isEmpty then none
    else
      let exOpt : Option Int :=
        match r2 with
        | [] => some 0
        | 'e' :: t => parseExp t
        | 'E' :: t => parseExp t
        | _ => none
      match exOpt with
      | none => none
      | some ex =>
        some (mkFinite sg.1 (natOfDigits (d1.1 ++ fr.1)) (ex - (fr.1.length : Int)))

/-- `val < 0` on a Python float (`-0.0 < 0` and `nan < 0` are false). -/
def pyLtZero : PyFloat → Bool
  | PyFloat.finite neg m _ => neg && decide (0 < m)
  | PyFloat.neginf => true
  | _ => false

/-- Round-half-even division `m / d` (how `:.2f` rounds the exact value). -/
def roundHalfEven (m d : Nat) : Nat :=
  let q := m / d
  let r := m % d
  if d < 2 * r then q + 1
  else if 2 * r < d then q
  else if q % 2 = 0 then q else q + 1

/-- Model of the f-string `f"{val:.2f}"`. -/
def pyFormatF2 : PyFloat → String
  | PyFloat.inf => "inf"
  | PyFloat.neginf => "-inf"
  | PyFloat.nan => "nan"
  | PyFloat.finite neg m sc =>
    let n2 : Nat :=
      if 0 ≤ sc + 2 then m * 10 ^ (sc + 2).toNat
      else roundHalfEven m (10 ^ (-(sc + 2)).toNat)
    let core := natRepr (n2 / 100) ++ "." ++ pad2 (n2 % 100)
    if neg then "-" ++ core else core

/-- `parse_amount` (ingest.py lines 57-63): `float(a)`, reject negatives,
render with two decimals.  `none` models a raised exception. -/
def parseAmount (a : String) : Option String :=
  match pyFloatOfString a with
  | none => none
  | some v => if pyLtZero v then none else some (pyFormatF2 v)

/-! ## `parse_date` (ingest.py lines 51-54): `strptime("%Y-%m-%d")` -/

/-- Gregorian leap year (as validated by `datetime.date`). -/
def isLeap (y : Nat) : Bool :=
  y % 4 = 0 && (y % 100 ≠ 0 || y % 400 = 0)

/-- Days in a month (as validated by `datetime.date`). -/
def daysInMonth (y m : Nat) : Nat :=
  if m = 2 then (if isLeap y then 29 else 28)
  else if m = 4 || m = 6 || m = 9 || m = 11 then 30
  else 31

/-- Split a character list on a separator character (Python `str.split(c)`). -/
def splitChar (c : Char) : List Char → List (List Char)
  | [] => [[]]
  | x :: xs =>
    if x = c then [] :: splitChar c xs
    else
      match splitChar c xs with
      | [] => [[x]]
      | h :: t => (x :: h) :: t

/-- `strptime`'s `%m`/`%d` field: one digit `1-9` or two digits in `lo..hi`
(two-digit `00` is excluded because no alternative of the field regex
matches it). -/
def fieldOk (p : List Char) (hi : Nat) : Bool :=
  p.all Char.isDigit &&
    ((p.length = 1 && 1 ≤ natOfDigits p) ||
      (p.length = 2 && 1 ≤ natOfDigits p && natOfDigits p ≤ hi))

/-- `parse_date(d)`: accept `YYYY-MM-DD` (year exactly four digits, month and
day one or two digits per the `strptime` field regexes, calendar-validated)
and return `date.isoformat()`, i.e. the zero-padded canonical form.
`none` models a raised exception. -/
def parseDate (s : String) : Option String :=
  match splitChar '-' s.data with
  | [p1, p2, p3] =>
    if p1.all Char.isDigit && p1.length = 4 && fieldOk p2 12 && fieldOk p3 31 then
      let y := natOfDigits p1
      let mo := natOfDigits p2
      let d := natOfDigits p3
      if 1 ≤ y && mo ≤ 12 && d ≤ daysInMonth y mo then
        some (pad4 y ++ "-" ++ pad2 mo ++ "-" ++ pad2 d)
      else none
    else none
  | _ => none

/-! ## The two compiled regexes (ingest.py lines 16-17)

`re.match` with a pattern ending in `$` also matches when a single trailing
newline follows, which is modelled by dropping one trailing `'\n'` first.
Python's `\d`/`\s` match non-ASCII digits/whitespace too; that is not
modelled (ASCII only). -/

/-- Drop a single trailing newline (the `$` anchor semantics). -/
def dropTrailNl (l : List Char) : List Char :=
  match l.reverse with
  | '\n' :: r => r.reverse
  | _ => l

/-- `SSN_RE = ^\d{3}-\d{2}-\d{4}$` applied with `re.match`. -/
def ssnMatch (s : String) : Bool :=
  match dropTrailNl s.data with
  | [a, b, c, h1, d, e, h2, f, g, i, j] =>
    a.isDigit && b.isDigit && c.isDigit && h1 = '-' && d.isDigit && e.isDigit &&
      h2 = '-' && f.isDigit && g.isDigit && i.isDigit && j.isDigit
  | _ => false

/-- Character class `[^@\s]`. -/
def emailOkChar (c : Char) : Bool :=
  !(c = '@') && !(isPySpace c)

/-- `EMAIL_RE = ^[^@\s]+@[^@\s]+\.[^@\s]+$` applied with `re.match`: a
non-empty local part without `@`/whitespace, one `@`, then a domain of
`[^@\s]` characters containing a `.` that has at least one character on each
side. -/
def emailMatch (s : String) : Bool :=
  let l := dropTrailNl s.data
  let u := l.takeWhile emailOkChar
  let r := l.dropWhile emailOkChar
  match r with
  | '@' :: d =>
    !u.isEmpty && !d.isEmpty && d.all emailOkChar && ((d.drop 1).dropLast).contains '.'
  | _ => false

/-! ## `uuid.UUID(...)` acceptance (used by validate_row, ingest.py line 84) -/

/-- Hexadecimal digit. -/
def isHexDigit (c : Char) : Bool :=
  c.isDigit || ('a' ≤ c && c ≤ 'f') || ('A' ≤ c && c ≤ 'F')

/-- Remove every occurrence of the four-character pattern `urn:`
(Python `str.replace("urn:", "")`, left-to-right, non-overlapping). -/
def removeUrn : List Char → List Char
  | 'u' :: 'r' :: 'n' :: ':' :: rest => removeUrn rest
  | c :: rest => c :: removeUrn rest
  | [] => []

/-- Remove every occurrence of the five-character pattern `uuid:`. -/
def removeUuidColon : List Char → List Char
  | 'u' :: 'u' :: 'i' :: 'd' :: ':' :: rest => removeUuidColon rest
  | c :: rest => c :: removeUuidColon rest
  | [] => []

/-- `str.strip("\x7b\x7d")`: strip leading and trailing braces. -/
def stripBraces (l : List Char) : List Char :=
  let isBrace : Char → Bool := fun c => c = '\x7b' || c = '\x7d'
  ((l.dropWhile isBrace).reverse.dropWhile isBrace).reverse

/-- Does `uuid.UUID(s)` succeed?  Mirrors CPython's constructor: remove
`urn:` and `uuid:`, strip braces, remove `-`, require 32 characters parsed by
`int(hex, 16)` (modelled as 32 hex digits; the whitespace/sign laxness of
`int(_, 16)` is not modelled). -/
def isUUID (s : String) : Bool :=
  let h := removeAllChar '-' (stripBraces (removeUuidColon (removeUrn s.data)))
  h.length = 32 && h.all isHexDigit

/-! ## `datetime.fromisoformat` on `created_at` (ingest.py lines 112-116) -/

/-- Value of two digit characters, `none` if either is not a digit. -/
def twoDigitVal (a b : Char) : Option Nat :=
  if a.isDigit && b.isDigit then some ((a.toNat - 48) * 10 + (b.toNat - 48))
  else none

/-- `HH[:MM[:SS[.digits+]]]` with range checks (the time grammar accepted by
`datetime.fromisoformat`; the colon-free basic format is not modelled). -/
def hmsOk (l : List Char) : Bool :=
  match l with
  | [h1, h2] => (twoDigitVal h1 h2).getD 99 ≤ 23
  | h1 :: h2 :: ':' :: m1 :: m2 :: rest =>
    (twoDigitVal h1 h2).getD 99 ≤ 23 && (twoDigitVal m1 m2).getD 99 ≤ 59 &&
      (match rest with
       | [] => true
       | ':' :: s1 :: s2 :: rest2 =>
         (twoDigitVal s1 s2).getD 99 ≤ 59 &&
           (match rest2 with
            | [] => true
            | '.' :: ds => !ds.isEmpty && ds.all Char.isDigit
            | _ => false)
       | _ => false)
  | _ => false

/-- Split the time part at the first `+`/`-` (UTC-offset separator). -/
def splitAtOffsetSign : List Char → List Char × Option (List Char)
  | [] => ([], none)
  | c :: cs =>
    if c = '+' || c = '-' then ([], some cs)
    else
      match splitAtOffsetSign cs with
      | (base, off) => (c :: base, off)

/-- Time-of-day with optional `±HH[:MM[:SS[.digits+]]]` offset. -/
def timeOk (l : List Char) : Bool :=
  match splitAtOffsetSign l with
  | (base, none) => hmsOk base
  | (base, some off) => hmsOk base && hmsOk off

/-- The ten-character date `YYYY-MM-DD`, calendar-validated. -/
def dateChars (y1 y2 y3 y4 m1 m2 d1 d2 : Char) : Bool :=
  y1.isDigit && y2.isDigit && y3.isDigit && y4.isDigit &&
    ((twoDigitVal m1 m2).getD 0 ≥ 1 && (twoDigitVal m1 m2).getD 0 ≤ 12) &&
    ((twoDigitVal d1 d2).getD 0 ≥ 1 &&
      (twoDigitVal d1 d2).getD 0 ≤
        daysInMonth (natOfDigits [y1, y2, y3, y4]) ((twoDigitVal m1 m2).getD 0)) &&
    1 ≤ natOfDigits [y1, y2, y3, y4]

/-- Model of `datetime.fromisoformat(created_at.replace("Z", ""))`: every
`'Z'` is removed first (that is what `str.replace` does); then a
`YYYY-MM-DD` date, optionally followed by a single separator character (any
character) and a time of day. -/
def isoDatetimeOk (s : String) : Bool :=
  match removeAllChar 'Z' s.data with
  | y1 :: y2 :: y3 :: y4 :: c1 :: m1 :: m2 :: c2 :: d1 :: d2 :: rest =>
    c1 = '-' && c2 = '-' && dateChars y1 y2 y3 y4 m1 m2 d1 d2 &&
      (match rest with
       | [] => true
       | _sep :: t => timeOk t)
  | _ => false

/-! ## RawRow and `validate_row` (ingest.py lines 66-118)

A parsed CSV row is a finite mapping from column name to an optional string
(`csv.DictReader` fills fields absent from a short line with `None`, which is
modelled as `none`; an absent key is modelled by the key not being present). -/

abbrev Row : Type := List (String × Option String)

/-- Dictionary lookup: `none` = key absent, `some none` = value `None`. -/
def rowGet : Row → String → Option (Option String)
  | [], _ => none
  | (k', v) :: rest, k => if k' = k then some v else rowGet rest k

/-- String value of a field (only used after the presence check passed, where
the value is known to be a proper string; defaults to `""`). -/
def rget (r : Row) (k : String) : String :=
  match rowGet r k with
  | some (some s) => s
  | _ => ""

/-- `k not in r or r[k] is None or str(r[k]).strip() == ""`. -/
def fieldMissing (r : Row) (k : String) : Bool :=
  match rowGet r k with
  | none => true
  | some none => true
  | some (some s) => pyStrip s = ""

/-- The canonical required-field order (ingest.py lines 67-77). -/
def requiredFields : List String :=
  ["disclosure_id", "institution_name", "transaction_type", "transaction_amount",
   "transaction_date", "reporting_region", "ssn", "email", "created_at"]

/-- The `for k in required` loop: reason code of the first missing field. -/
def firstMissing (r : Row) : List String → Option String
  | [] => none
  | k :: ks =>
    if fieldMissing r k then some ("missing_required_field:" ++ k)
    else firstMissing r ks

/-- `ALLOWED_TX_TYPES` (a set; membership is string equality). -/
def allowedTxTypes : List String := ["WIRE", "ACH", "CARD", "CASH", "CHECK"]

/-- `ALLOWED_REGIONS`. -/
def allowedRegions : List String := ["NE", "MW", "S", "W"]

/-- `validate_row(r)` (ingest.py lines 66-118): sequential early-return
checks; the pair is `(ok, reason)`. -/
def validateRow (r : Row) : Bool × String :=
  match firstMissing r requiredFields with
  | some c => (false, c)
  | none =>
    if isUUID (rget r "disclosure_id") = false then (false, "invalid_disclosure_id_uuid")
    else if allowedTxTypes.contains (rget r "transaction_type") = false then
      (false, "invalid_transaction_type")
    else if allowedRegions.contains (rget r "reporting_region") = false then
      (false, "invalid_reporting_region")
    else if (parseAmount (rget r "transaction_amount")).isNone then
      (false, "invalid_transaction_amount")
    else if (parseDate (rget r "transaction_date")).isNone then
      (false, "invalid_transaction_date")
    else if ssnMatch (rget r "ssn") = false then (false, "invalid_ssn_format")
    else if emailMatch (rget r "email") = false then (false, "invalid_email_format")
    else if isoDatetimeOk (rget r "created_at") = false then (false, "invalid_created_at")
    else (true, "")

/-! ## Specification view of the validator for claim C3: an ordered rule list,
scanned for the first failure. -/

/-- The nine validation rules in the order the specification fixes, each
returning `none` (pass) or its reason code (fail). -/
def ruleOutcomes (r : Row) : List (Option String) :=
  [firstMissing r requiredFields,
   if isUUID (rget r "disclosure_id") then none else some "invalid_disclosure_id_uuid",
   if allowedTxTypes.contains (rget r "transaction_type") then none
     else some "invalid_transaction_type",
   if allowedRegions.contains (rget r "reporting_region") then none
     else some "invalid_reporting_region",
   if (parseAmount (rget r "transaction_amount")).isSome then none
     else some "invalid_transaction_amount",
   if (parseDate (rget r "transaction_date")).isSome then none
     else some "invalid_transaction_date",
   if ssnMatch (rget r "ssn") then none else some "invalid_ssn_format",
   if emailMatch (rget r "email") then none else some "invalid_email_format",
   if isoDatetimeOk (rget r "created_at") then none else some "invalid_created_at"]

/-- First `some` in a list of outcomes. -/
def firstSome : List (Option String) → Option String
  | [] => none
  | o :: os =>
    match o with
    | some c => some c
    | none => firstSome os

/-- Reason code of the first failing rule (the specification's contract). -/
def firstFail (r : Row) : Option String :=
  firstSome (ruleOutcomes r)

/-! ## Sanitized record construction (ingest.py lines 174-187)

`sha256_hex` concatenates the value with the salt and hashes; the digest
itself is an external primitive, so the hash is threaded as an explicit
function parameter `h` (the claims never depend on its value). -/

structure Masked where
  disclosure_id : String
  institution_name : String
  transaction_type : String
  transaction_amount : String
  transaction_date : String
  reporting_region : String
  ssn_masked : String
  email_masked : String
  ssn_hash : String
  email_hash : String
  created_at : String
deriving DecidableEq

/-- The `masked = { ... }` dictionary built for an accepted row.  The two
parses return `Option`; for a row accepted by `validate_row` they are `some`
(the source would otherwise raise), so `getD ""` is never reached on the
accepted path. -/
def transformRow (h : String → String) (r : Row) : Masked :=
  ⟨rget r "disclosure_id",
   pyStrip (rget r "institution_name"),
   pyStrip (rget r "transaction_type"),
   (parseAmount (rget r "transaction_amount")).getD "",
   (parseDate (rget r "transaction_date")).getD "",
   pyStrip (rget r "reporting_region"),
   maskSsn (pyStrip (rget r "ssn")),
   maskEmail (pyStrip (rget r "email")),
   h (pyStrip (rget r "ssn")),
   h (pyStrip (rget r "email")),
   pyStrip (rget r "created_at")⟩

/-- A quarantine entry: `{"row": row, "error": reason}`. -/
structure QEntry where
  row : Row
  error : String
deriving DecidableEq

/-- The per-row loop of `lambda_handler` (ingest.py lines 165-187):
accumulates `valid_masked` and `invalid_rows` in row order. -/
def processRows (h : String → String) : List Row → List Masked × List QEntry
  | [] => ([], [])
  | r :: rs =>
    let p := processRows h rs
    let v := validateRow r
    if v.1 then (transformRow h r :: p.1, p.2) else (p.1, ⟨r, v.2⟩ :: p.2)

/-! ## Output-key derivation and per-file outputs (ingest.py lines 194-204) -/

/-- `key.split("/")[-1]`. -/
def lastSegment (s : String) : String :=
  String.mk ((splitChar '/' s.data).getLastD [])

/-- `str.replace(".csv", "")`: remove every (leftmost, non-overlapping)
occurrence of the four characters `.csv`. -/
def stripCsvAux : List Char → List Char
  | '.' :: 'c' :: 's' :: 'v' :: rest => stripCsvAux rest
  | c :: rest => c :: stripCsvAux rest
  | [] => []

/-- `basename.replace(".csv", "")` as a `String` operation. -/
def stripCsvAll (s : String) : String :=
  String.mk (stripCsvAux s.data)

/-- `f"(curated_prefix)masked_(base).jsonl"` for source key `key`. -/
def curatedKey (cp key : String) : String :=
  cp ++ "masked_" ++ stripCsvAll (lastSegment key) ++ ".jsonl"

/-- `f"(quarantine_prefix)quarantine_(base).jsonl"` for source key `key`. -/
def quarantineKey (qp key : String) : String :=
  qp ++ "quarantine_" ++ stripCsvAll (lastSegment key) ++ ".jsonl"

/-- The outputs one file produces: the accumulated lists and the two
conditional object writes (key plus serialized records; an object is written
only when its list is non-empty). -/
structure FileOut where
  maskedRecs : List Masked
  quarantined : List QEntry
  curated : Option (String × List Masked)
  quarantine : Option (String × List QEntry)
deriving DecidableEq

/-- Per-file behaviour of `lambda_handler` after parsing (ingest.py lines
165-204), with the hash function and the two environment prefixes as
parameters. -/
def processFile (h : String → String) (cp qp key : String) (rows : List Row) : FileOut :=
  let p := processRows h rows
  ⟨p.1, p.2,
   if p.1.isEmpty then none else some (curatedKey cp key, p.1),
   if p.2.isEmpty then none else some (quarantineKey qp key, p.2)⟩

/-- Specification-side helper for claim C4 only, following the spec's words
"the source file's base name with its extension stripped": everything before
the last `.` (the name unchanged when it has no `.`). -/
def specStripExt (s : String) : String :=
  if s.data.contains '.' then
    String.mk (((s.data.reverse.dropWhile (fun c => !(c = '.'))).drop 1).reverse)
  else s

/-! ## `batch_write` (ingest.py lines 138-148)

The DynamoDB client is modelled as a state-threading step function
`step : σ → List α → σ × List α`: one `batch_write_item` call takes the
request items and returns the new store state and the `UnprocessedItems` of
the response.  The value returned by the model is the list of calls issued
(each call = the item list it carries), which is what the claims are about. -/

/-- `range(0, len(items), 25)` chunking, fuelled for kernel reduction
(`fuel ≥ items.length` always holds at the call site). -/
def chunksAux {α : Type} : Nat → List α → List (List α)
  | _, [] => []
  | 0, _ :: _ => []
  | fuel + 1, x :: xs => ((x :: xs).take 25) :: chunksAux fuel ((x :: xs).drop 25)

/-- The chunks `items[i:i+25]` in order. -/
def pyChunks {α : Type} (items : List α) : List (List α) :=
  chunksAux items.length items

/-- The `while resp.get("UnprocessedItems") and retries < 5` loop: given the
current unprocessed items `u`, issue up to `fuel` further calls, each
carrying the previous response's unprocessed items.  Returns the final store
state and the calls issued by the loop. -/
def retryCalls {σ α : Type} (step : σ → List α → σ × List α) :
    Nat → σ → List α → σ × List (List α)
  | 0, s, _ => (s, [])
  | fuel + 1, s, u =>
    if u.isEmpty then (s, [])
    else
      let p := step s u
      let r := retryCalls step fuel p.1 p.2
      (r.1, u :: r.2)

/-- One chunk: the initial `batch_write_item` call followed by the retry
loop (retry budget 5). -/
def chunkCalls {σ α : Type} (step : σ → List α → σ × List α) (s : σ)
    (chunk : List α) : σ × List (List α) :=
  let p := step s chunk
  let r := retryCalls step 5 p.1 p.2
  (r.1, chunk :: r.2)

/-- `batch_write` over a chunk list: threads the store state, one call group
per chunk. -/
def batchWriteGroups {σ α : Type} (step : σ → List α → σ × List α) :
    σ → List (List α) → σ × List (List (List α))
  | s, [] => (s, [])
  | s, c :: cs =>
    let p := chunkCalls step s c
    let r := batchWriteGroups step p.1 cs
    (r.1, p.2 :: r.2)

/-- The call groups `batch_write(items)` issues, one group per 25-chunk. -/
def bwGroups {σ α : Type} (step : σ → List α → σ × List α) (s0 : σ)
    (items : List α) : List (List (List α)) :=
  (batchWriteGroups step s0 (pyChunks items)).2

/-- All calls `batch_write(items)` issues, in order. -/
def bwCalls {σ α : Type} (step : σ → List α → σ × List α) (s0 : σ)
    (items : List α) : List (List α) :=
  (bwGroups step s0 items).flatten

/-! ## The search handler (src/lambda/search.py)

The DynamoDB table is modelled as an oracle from the issued call to the
response's `(Count, Items)`; items are opaque strings.  The handler returns
its HTTP response and the store call it made (if any). -/

/-- An HTTP-ish event: `rawPath`, method, and the query-string mapping. -/
structure SEvent where
  rawPath : String
  method : String
  qs : List (String × String)
deriving DecidableEq

/-- Query-parameter lookup (`qs.get(name)`). -/
def lookupStr : List (String × String) → String → Option String
  | [], _ => none
  | (k', v) :: rest, k => if k' = k then some v else lookupStr rest k

/-- `qs.get(k)` on an event. -/
def qsGet (ev : SEvent) (k : String) : Option String :=
  lookupStr ev.qs k

/-- Python truthiness of an optional string (`None` and `""` are falsy). -/
def truthyOpt : Option String → Bool
  | none => false
  | some s => !s.isEmpty

/-- `int(str)`: strip whitespace, optional sign, non-empty digits
(`_` separators and non-ASCII digits are not modelled). -/
def pyIntOfString (s : String) : Option Int :=
  let l := pyStripList s.data
  let sg := takeSign l
  if sg.2.isEmpty || !(sg.2.all Char.isDigit) then none
  else some (if sg.1 then -(natOfDigits sg.2 : Int) else (natOfDigits sg.2 : Int))

/-- `int(value)` where `value` may be `None` (a `TypeError`, like a
`ValueError`, is caught by `_int`). -/
def pyIntOpt : Option String → Option Int
  | none => none
  | some s => pyIntOfString s

/-- The store calls the handler can issue.  `instQ` is `table.query` on the
institution/date index (`limit = none` when no `Limit` argument is passed);
`regionQ` is `table.query` on the region/date index (the source never passes
`Limit` there, hence no such field); `scanQ` is the `contains` scan. -/
inductive SearchCall where
  | instQ (inst : String) (date : Option String) (limit : Option Int)
  | regionQ (region : String) (date : Option String)
  | scanQ (sub : String)
deriving DecidableEq

/-- Response body: an error object or a `count`/`items` object. -/
inductive SBody where
  | errB (msg : String)
  | resultsB (count : Int) (items : List String)
deriving DecidableEq

/-- `_resp(status, body)`. -/
structure SResp where
  status : Nat
  body : SBody
deriving DecidableEq

/-- `lambda_handler` of search.py: branch order and conditions mirror the
source (`GET /` first, then institution, region, contains, else 400). -/
def searchHandler (store : SearchCall → Int × List String) (ev : SEvent) :
    SResp × Option SearchCall :=
  let inst := qsGet ev "institution"
  let region := qsGet ev "region"
  let txDate := qsGet ev "date"
  let sub := qsGet ev "contains"
  let lim : Int := (pyIntOpt (qsGet ev "limit")).getD 25
  let dOpt : Option String := if truthyOpt txDate then some (txDate.getD "") else none
  if ev.method == "GET" && ev.rawPath == "/" then
    if truthyOpt inst then
      let c := SearchCall.instQ (inst.getD "") dOpt (some lim)
      let r := store c
      (⟨200, SBody.resultsB r.1 r.2⟩, some c)
    else (⟨400, SBody.errB "GET / requires ?institution=... for ordered results"⟩, none)
  else if truthyOpt inst then
    let c := SearchCall.instQ (inst.getD "") dOpt none
    let r := store c
    (⟨200, SBody.resultsB r.1 r.2⟩, some c)
  else if truthyOpt region then
    let c := SearchCall.regionQ (region.getD "") dOpt
    let r := store c
    (⟨200, SBody.resultsB r.1 r.2⟩, some c)
  else if truthyOpt sub then
    let c := SearchCall.scanQ (sub.getD "")
    let r := store c
    (⟨200, SBody.resultsB r.1 r.2⟩, some c)
  else (⟨400, SBody.errB "Provide ?institution=..., ?region=..., or ?contains=..."⟩, none)

/-- Whether a response is the `200 (count, items)` shape. -/
def isResults (r : SResp) : Bool :=
  match r.body with
  | SBody.resultsB _ _ => r.status = 200
  | _ => false

/-- Specification-side acceptance condition for the amended claim C9: on
`GET /` only `institution` decides; elsewhere any of the three recognized
parameters does. -/
def acceptsCond (ev : SEvent) : Bool :=
  if ev.method == "GET" && ev.rawPath == "/" then truthyOpt (qsGet ev "institution")
  else
    truthyOpt (qsGet ev "institution") || truthyOpt (qsGet ev "region") ||
      truthyOpt (qsGet ev "contains")

/-! ## Concrete fixtures used by closed theorems and witnesses -/

/-- Identity stand-in for the salted hash (its value is irrelevant to every
claim; it only fills the two hash fields). -/
def idHash : String → String := fun s => s

/-- A row that passes every validation rule. -/
def rowGood : Row :=
  [("disclosure_id", some "11111111-1111-1111-1111-111111111111"),
   ("institution_name", some " Acme Bank "),
   ("transaction_type", some "WIRE"),
   ("transaction_amount", some "100"),
   ("transaction_date", some "2024-01-15"),
   ("reporting_region", some "NE"),
   ("ssn", some "123-45-6789"),
   ("email", some "jane@example.com"),
   ("created_at", some "2024-01-15T10:00:00")]

/-- The same row with `transaction_amount = "nan"`. -/
def rowNan : Row :=
  [("disclosure_id", some "11111111-1111-1111-1111-111111111111"),
   ("institution_name", some " Acme Bank "),
   ("transaction_type", some "WIRE"),
   ("transaction_amount", some "nan"),
   ("transaction_date", some "2024-01-15"),
   ("reporting_region", some "NE"),
   ("ssn", some "123-45-6789"),
   ("email", some "jane@example.com"),
   ("created_at", some "2024-01-15T10:00:00")]

/-- The claim C1 target shape `^\d+\.\d{2}$`: one or more digits, a dot,
exactly two digits. -/
def amountShapeOk (s : String) : Bool :=
  let ds := s.data.takeWhile Char.isDigit
  let rest := s.data.dropWhile Char.isDigit
  !ds.isEmpty &&
    (match rest with
     | ['.', a, b] => a.isDigit && b.isDigit
     | _ => false)

/-- A store oracle returning an empty result for every call. -/
def storeZero : SearchCall → Int × List String := fun _ => (0, [])

/-- `GET /` with only `region` supplied. -/
def evRegionRoot : SEvent := ⟨"/", "GET", [("region", "NE")]⟩

/-- `GET /` with `institution` supplied. -/
def evInstRoot : SEvent := ⟨"/", "GET", [("institution", "Acme")]⟩

/-- `GET /` with `institution` and a non-integer `limit`. -/
def evLimitRoot : SEvent := ⟨"/", "GET", [("institution", "Acme"), ("limit", "xyz")]⟩

/-- A non-root request with `institution` and an integer `limit`. -/
def evInstPath : SEvent := ⟨"/search", "POST", [("institution", "Acme"), ("limit", "7")]⟩

end FinDisclosures

namespace FinDisclosures

/-! ## Helper lemmas -/

theorem splitFirstAt_isSome (l : List Char) :
    (splitFirstAt l).isSome = l.contains '@' := by
  induction l with
  | nil => rfl
  | cons c cs ih =>
    have e2 : (c :: cs).contains '@' = (('@' == c) || cs.contains '@') := rfl
    by_cases hc : c = '@'
    · subst hc; rfl
    · have hcb : ('@' == c) = false := beq_eq_false_iff_ne.mpr (Ne.symm hc)
      cases hrec : splitFirstAt cs with
      | none =>
        rw [hrec] at ih
        have e1 : splitFirstAt (c :: cs) = none := by
          unfold splitFirstAt
          rw [if_neg hc, hrec]
        have ihf : cs.contains '@' = false := ih.symm
        rw [e1, e2, hcb, ihf]
        rfl
      | some p =>
        obtain ⟨u, d⟩ := p
        rw [hrec] at ih
        have e1 : splitFirstAt (c :: cs) = some (c :: u, d) := by
          unfold splitFirstAt
          rw [if_neg hc, hrec]
        have iht : cs.contains '@' = true := ih.symm
        rw [e1, e2, hcb, iht]
        rfl

theorem splitFirstAt_append (u d : List Char) (hu : u.contains '@' = false) :
    splitFirstAt (u ++ '@' :: d) = some (u, d) := by
  induction u with
  | nil => simp [splitFirstAt]
  | cons c u' ih =>
    have e2 : (c :: u').contains '@' = (('@' == c) || u'.contains '@') := rfl
    rw [e2, Bool.or_eq_false_iff] at hu
    have hne : ¬ c = '@' := by
      intro hh
      subst hh
      simp at hu
    show splitFirstAt (c :: (u' ++ '@' :: d)) = some (c :: u', d)
    unfold splitFirstAt
    rw [if_neg hne, ih hu.2]

theorem processRows_fst (h : String → String) (rows : List Row) :
    (processRows h rows).1 =
      (rows.filter (fun r => (validateRow r).1)).map (transformRow h) := by
  induction rows with
  | nil => rfl
  | cons r rs ih =>
    cases hv : (validateRow r).1 <;> simp [processRows, hv, ih]

theorem processRows_snd (h : String → String) (rows : List Row) :
    (processRows h rows).2 =
      (rows.filter (fun r => !(validateRow r).1)).map
        (fun r => (⟨r, (validateRow r).2⟩ : QEntry)) := by
  induction rows with
  | nil => rfl
  | cons r rs ih =>
    cases hv : (validateRow r).1 <;> simp [processRows, hv, ih]

theorem maskEmail_fallback (s : String) (hno : s.data.contains '@' = false) :
    maskEmail s = "***" := by
  unfold maskEmail maskEmailRaw
  have h := splitFirstAt_isSome s.data
  rw [hno] at h
  cases hs : splitFirstAt s.data with
  | none => rfl
  | some p => rw [hs] at h; simp at h

/-! ## Claim theorems -/

/-- Claim C7: `mask_email` splits at the first `@`; with a non-empty local
part it returns its first character, `***@`, and the remainder; with an empty
local part it returns `***@` plus the remainder; with no `@` at all it
returns the literal `***`. -/
theorem c7_mask_email (s : String) :
    (s.data.contains '@' = false → maskEmail s = "***")
  ∧ (∀ u d : List Char, s.data = u ++ '@' :: d → u.contains '@' = false →
      maskEmail s =
        (match u with
         | [] => "***@" ++ String.mk d
         | c :: _ => String.mk [c] ++ "***@" ++ String.mk d)) := by
  constructor
  · exact maskEmail_fallback s
  · intro u d hs hu
    unfold maskEmail maskEmailRaw
    rw [hs, splitFirstAt_append u d hu]
    cases u <;> rfl

/-- Witness for C7 at concrete inputs. -/
theorem c7_mask_email_witness :
    maskEmail "nope" = "***" ∧ maskEmail "jane@example.com" = "j***@example.com" :=
  ⟨(c7_mask_email "nope").1 (by decide),
   (c7_mask_email "jane@example.com").2 "jane".data "example.com".data (by rfl) (by decide)⟩

/-- Claim C8: the mask functions never raise — `mask_ssn` is built from total
primitives (its result is always defined, with length `7 + min 4 |s|`), and
`mask_email`'s try-body fails exactly when there is no `@`, in which case the
handler degrades to the placeholder `***`. -/
theorem c8_mask_safety (s : String) :
    ((maskEmailRaw s).isOk = s.data.contains '@')
  ∧ (s.data.contains '@' = false → maskEmail s = "***")
  ∧ (maskSsn s).length = 7 + min 4 s.data.length := by
  refine ⟨?_, maskEmail_fallback s, ?_⟩
  · have h := splitFirstAt_isSome s.data
    unfold maskEmailRaw
    cases hs : splitFirstAt s.data with
    | none => rw [hs] at h; exact h
    | some p =>
      rw [hs] at h
      obtain ⟨u, d⟩ := p
      cases u <;> exact h
  · unfold maskSsn takeLastN
    rw [String.length_append]
    show 7 + (String.mk (s.data.drop (s.data.length - 4))).length = 7 + min 4 s.data.length
    have hlen : (String.mk (s.data.drop (s.data.length - 4))).length =
        (s.data.drop (s.data.length - 4)).length := rfl
    rw [hlen, List.length_drop]
    omega

/-- Witness for C8 at a concrete input. -/
theorem c8_mask_safety_witness : maskEmail "not-an-email" = "***" :=
  (c8_mask_safety "not-an-email").2.1 (by decide)

/-- Claim C1 (code bug): the row `rowNan` — all fields well-formed except
`transaction_amount = "nan"` — is accepted by `validate_row` (because
`float("nan")` succeeds and `nan < 0` is false), yet the sanitized record's
`transaction_amount` is the string `"nan"`, which does not match
`^\d+\.\d{2}$`. -/
theorem c1_nan_accepted :
    validateRow rowNan = (true, "")
  ∧ (∀ h : String → String, (transformRow h rowNan).transaction_amount = "nan")
  ∧ amountShapeOk "nan" = false := by
  refine ⟨by decide, ?_, by decide⟩
  intro h
  rfl

/-- Claim C2: the per-row loop routes every parsed row to exactly one of the
two accumulators — the accepted rows (in order, transformed) and the rejected
rows (in order, with their reason) partition the parsed rows. -/
theorem c2_partition (h : String → String) (rows : List Row) :
    (processRows h rows).1 = (rows.filter (fun r => (validateRow r).1)).map (transformRow h)
  ∧ (processRows h rows).2 =
      (rows.filter (fun r => !(validateRow r).1)).map (fun r => ⟨r, (validateRow r).2⟩)
  ∧ (processRows h rows).1.length + (processRows h rows).2.length = rows.length
  ∧ ((rows.filter (fun r => (validateRow r).1)) ++
      ((processRows h rows).2.map QEntry.row)).Perm rows := by
  have h1 := processRows_fst h rows
  have h2 := processRows_snd h rows
  have hperm := List.filter_append_perm (fun r => (validateRow r).1) rows
  have h4 : ((rows.filter (fun r => (validateRow r).1)) ++
      ((processRows h rows).2.map QEntry.row)).Perm rows := by
    rw [h2, List.map_map]
    have : QEntry.row ∘ (fun r => (⟨r, (validateRow r).2⟩ : QEntry)) = id := rfl
    rw [this, List.map_id]
    exact hperm
  have h3 : (processRows h rows).1.length + (processRows h rows).2.length = rows.length := by
    rw [h1, h2, List.length_map, List.length_map]
    have hlen := hperm.length_eq
    rw [List.length_append] at hlen
    exact hlen
  exact ⟨h1, h2, h3, h4⟩

set_option maxHeartbeats 1600000 in
/-- Claim C3: `validate_row` evaluates its rules in the fixed order (required
fields in canonical order, then UUID, transaction type, region, amount, date,
ssn, email, created_at); the result is determined by the first failing rule —
accepted iff none fails, otherwise the first failure's reason code (for a
missing field, the first missing field in canonical order). -/
theorem c3_first_failing_rule (r : Row) :
    validateRow r = ((firstFail r).isNone, (firstFail r).getD "") := by
  cases hm : firstMissing r requiredFields <;>
    cases hu : isUUID (rget r "disclosure_id") <;>
    rcases Decidable.em (rget r "transaction_type" ∈ allowedTxTypes) with ht | ht <;>
    rcases Decidable.em (rget r "reporting_region" ∈ allowedRegions) with hg | hg <;>
    cases ha : parseAmount (rget r "transaction_amount") <;>
    cases hd : parseDate (rget r "transaction_date") <;>
    cases hs : ssnMatch (rget r "ssn") <;>
    cases he : emailMatch (rget r "email") <;>
    cases hc : isoDatetimeOk (rget r "created_at") <;>
    simp [validateRow, firstFail, ruleOutcomes, firstSome, hm, hu, ht, hg, ha, hd, hs, he, hc]

/-- Claim C4 counterexample: for the source key `uploads/data.txt` the code
produces the curated key `curated/masked_data.txt.jsonl`, not the key the
claim's formula (base name with its extension stripped) prescribes. -/
theorem c4_counterexample :
    ((processFile idHash "curated/" "quarantine/" "uploads/data.txt" [rowGood]).curated).map
        (fun p => p.1) = some "curated/masked_data.txt.jsonl"
  ∧ ¬ ("curated/masked_data.txt.jsonl" =
        "curated/" ++ "masked_" ++ specStripExt (lastSegment "uploads/data.txt") ++ ".jsonl") := by
  constructor
  · decide
  · decide

/-- Claim C4 (amended): the curated object key is the curated prefix,
`masked_`, the source file's base name with every occurrence of `.csv`
removed, and `.jsonl`; correspondingly for the quarantine object — a
deterministic function of the prefixes and the source key alone. -/
theorem c4_amended (h : String → String) (cp qp key : String) (rows : List Row) :
    (∀ k recs, (processFile h cp qp key rows).curated = some (k, recs) →
      k = cp ++ "masked_" ++ stripCsvAll (lastSegment key) ++ ".jsonl")
  ∧ (∀ k ents, (processFile h cp qp key rows).quarantine = some (k, ents) →
      k = qp ++ "quarantine_" ++ stripCsvAll (lastSegment key) ++ ".jsonl") := by
  constructor
  · intro k recs hk
    unfold processFile at hk
    dsimp only at hk
    split at hk
    · exact absurd hk (by simp)
    · rw [Option.some.injEq, Prod.mk.injEq] at hk
      exact hk.1.symm
  · intro k ents hk
    unfold processFile at hk
    dsimp only at hk
    split at hk
    · exact absurd hk (by simp)
    · rw [Option.some.injEq, Prod.mk.injEq] at hk
      exact hk.1.symm

/-- Witness for C4 (amended) at a concrete file. -/
theorem c4_amended_witness :
    ("curated/masked_data.jsonl" : String) =
      "curated/" ++ "masked_" ++ stripCsvAll (lastSegment "uploads/data.csv") ++ ".jsonl" :=
  (c4_amended idHash "curated/" "quarantine/" "uploads/data.csv" [rowGood]).1
    "curated/masked_data.jsonl" [transformRow idHash rowGood] (by decide)

theorem chunksAux_empty {α : Type} (fuel : Nat) : chunksAux fuel ([] : List α) = [] := by
  cases fuel <;> rfl

theorem chunksAux_flatten {α : Type} :
    ∀ (fuel : Nat) (l : List α), l.length ≤ fuel → (chunksAux fuel l).flatten = l := by
  intro fuel
  induction fuel with
  | zero =>
    intro l hl
    cases l with
    | nil => rfl
    | cons x xs => simp at hl
  | succ f ih =>
    intro l hl
    cases l with
    | nil => rfl
    | cons x xs =>
      have h' : ((x :: xs).drop 25).length ≤ f := by
        rw [List.length_drop]
        simp only [List.length_cons] at hl
        simp only [List.length_cons]
        omega
      show ((x :: xs).take 25 :: chunksAux f ((x :: xs).drop 25)).flatten = x :: xs
      rw [List.flatten_cons, ih _ h', List.take_append_drop]

theorem chunksAux_sizes {α : Type} :
    ∀ (fuel : Nat) (l : List α), ∀ c ∈ chunksAux fuel l, c.length ≤ 25 := by
  intro fuel
  induction fuel with
  | zero =>
    intro l c hc
    cases l <;> simp [chunksAux] at hc
  | succ f ih =>
    intro l c hc
    cases l with
    | nil => simp [chunksAux] at hc
    | cons x xs =>
      have e : chunksAux (f + 1) (x :: xs) =
          ((x :: xs).take 25) :: chunksAux f ((x :: xs).drop 25) := rfl
      rw [e] at hc
      rcases List.mem_cons.mp hc with h | h
      · subst h
        rw [List.length_take]
        exact min_le_left _ _
      · exact ih _ c h

theorem chunksAux_dropLast {α : Type} :
    ∀ (fuel : Nat) (l : List α), l.length ≤ fuel →
      ∀ c ∈ (chunksAux fuel l).dropLast, c.length = 25 := by
  intro fuel
  induction fuel with
  | zero =>
    intro l hl c hc
    cases l with
    | nil => simp [chunksAux] at hc
    | cons x xs => simp at hl
  | succ f ih =>
    intro l hl c hc
    cases l with
    | nil => simp [chunksAux] at hc
    | cons x xs =>
      have e : chunksAux (f + 1) (x :: xs) =
          ((x :: xs).take 25) :: chunksAux f ((x :: xs).drop 25) := rfl
      rw [e] at hc
      cases hdrop : (x :: xs).drop 25 with
      | nil =>
        rw [hdrop, chunksAux_empty] at hc
        simp at hc
      | cons y ys =>
        have hlen26 : 26 ≤ (x :: xs).length := by
          have hld := congrArg List.length hdrop
          rw [List.length_drop] at hld
          simp only [List.length_cons] at hld ⊢
          omega
        have hylen : (y :: ys).length ≤ f := by
          have hld := congrArg List.length hdrop
          rw [List.length_drop] at hld
          simp only [List.length_cons] at hl hld ⊢
          omega
        rw [hdrop] at hc
        obtain ⟨f', rfl⟩ : ∃ f', f = f' + 1 := by
          cases f with
          | zero => exfalso; simp only [List.length_cons] at hylen; omega
          | succ f' => exact ⟨f', rfl⟩
        have e2 : chunksAux (f' + 1) (y :: ys) =
            ((y :: ys).take 25) :: chunksAux f' ((y :: ys).drop 25) := rfl
        rw [e2, List.dropLast_cons₂] at hc
        rcases List.mem_cons.mp hc with h | h
        · subst h
          rw [List.length_take]
          exact min_eq_left (by simp only [List.length_cons] at hlen26 ⊢; omega)
        · exact ih (y :: ys) hylen c (by rw [e2]; exact h)

theorem div25_step (n : Nat) (hn : 1 ≤ n) :
    (n - 25 + 24) / 25 + 1 = (n + 24) / 25 := by
  rcases le_or_lt n 25 with hle | hlt
  · have h1 : n - 25 = 0 := by omega
    have h2 : (n + 24) / 25 = 1 := by
      rw [show n + 24 = (n - 1) + 25 from by omega,
        Nat.add_div_right _ (by norm_num), Nat.div_eq_of_lt (by omega)]
    rw [h1, h2]
  · rw [show n + 24 = (n - 25 + 24) + 25 from by omega,
      Nat.add_div_right _ (by norm_num)]

theorem chunksAux_length {α : Type} :
    ∀ (fuel : Nat) (l : List α), l.length ≤ fuel →
      (chunksAux fuel l).length = (l.length + 24) / 25 := by
  intro fuel
  induction fuel with
  | zero =>
    intro l hl
    cases l with
    | nil => simp [chunksAux_empty]
    | cons x xs => simp at hl
  | succ f ih =>
    intro l hl
    cases l with
    | nil => simp [chunksAux_empty]
    | cons x xs =>
      have h' : ((x :: xs).drop 25).length ≤ f := by
        rw [List.length_drop]
        simp only [List.length_cons] at hl ⊢
        omega
      have e : chunksAux (f + 1) (x :: xs) =
          ((x :: xs).take 25) :: chunksAux f ((x :: xs).drop 25) := rfl
      rw [e, List.length_cons, ih _ h', List.length_drop]
      exact div25_step (x :: xs).length (by simp)

theorem retryCalls_len {σ α : Type} (step : σ → List α → σ × List α) :
    ∀ (fuel : Nat) (s : σ) (u : List α), ((retryCalls step fuel s u).2).length ≤ fuel := by
  intro fuel
  induction fuel with
  | zero => intro s u; simp [retryCalls]
  | succ f ih =>
    intro s u
    by_cases hu : u.isEmpty
    · simp [retryCalls, hu]
    · have h := ih (step s u).1 (step s u).2
      simp only [retryCalls, hu, Bool.false_eq_true, if_false, List.length_cons]
      omega

theorem retryCalls_sizes {σ α : Type} (step : σ → List α → σ × List α)
    (hstep : ∀ s u, ((step s u).2).length ≤ u.length) :
    ∀ (fuel : Nat) (s : σ) (u : List α),
      ∀ c ∈ (retryCalls step fuel s u).2, c.length ≤ u.length := by
  intro fuel
  induction fuel with
  | zero => intro s u c hc; simp [retryCalls] at hc
  | succ f ih =>
    intro s u c hc
    by_cases hu : u.isEmpty
    · simp [retryCalls, hu] at hc
    · simp only [retryCalls, hu, Bool.false_eq_true, if_false] at hc
      rcases List.mem_cons.mp hc with h | h
      · subst h; exact le_refl _
      · exact le_trans (ih (step s u).1 (step s u).2 c h) (hstep s u)

theorem bwGroups_heads {σ α : Type} (step : σ → List α → σ × List α) :
    ∀ (s : σ) (cs : List (List α)),
      ((batchWriteGroups step s cs).2).map (fun g => g.head?) = cs.map some := by
  intro s cs
  induction cs generalizing s with
  | nil => rfl
  | cons c cs ih => simp [batchWriteGroups, chunkCalls, ih]

theorem bwGroups_len {σ α : Type} (step : σ → List α → σ × List α)
    (s : σ) (cs : List (List α)) :
    ((batchWriteGroups step s cs).2).length = cs.length := by
  have h := congrArg List.length (bwGroups_heads step s cs)
  simpa using h

theorem bwGroups_ne_nil {σ α : Type} (step : σ → List α → σ × List α) :
    ∀ (s : σ) (cs : List (List α)), ∀ g ∈ (batchWriteGroups step s cs).2, g ≠ [] := by
  intro s cs
  induction cs generalizing s with
  | nil => intro g hg; simp [batchWriteGroups] at hg
  | cons c cs ih =>
    intro g hg
    simp only [batchWriteGroups] at hg
    rcases List.mem_cons.mp hg with h | h
    · subst h; simp [chunkCalls]
    · exact ih _ g h

theorem bwGroups_sizes {σ α : Type} (step : σ → List α → σ × List α)
    (hstep : ∀ s u, ((step s u).2).length ≤ u.length) :
    ∀ (s : σ) (cs : List (List α)), (∀ c ∈ cs, c.length ≤ 25) →
      ∀ call ∈ ((batchWriteGroups step s cs).2).flatten, call.length ≤ 25 := by
  intro s cs
  induction cs generalizing s with
  | nil => intro _ call hc; simp [batchWriteGroups] at hc
  | cons ch cs ih =>
    intro hcs call hc
    simp only [batchWriteGroups, List.flatten_cons] at hc
    rcases List.mem_append.mp hc with h | h
    · simp only [chunkCalls] at h
      rcases List.mem_cons.mp h with h2 | h2
      · subst h2; exact hcs _ (by simp)
      · have h3 := retryCalls_sizes step hstep 5 (step s ch).1 (step s ch).2 call h2
        have h4 := hstep s ch
        have h5 := hcs ch (by simp)
        omega
    · exact ih _ (fun x hx => hcs x (by simp [hx])) call h

theorem bwGroups_calls_bound {σ α : Type} (step : σ → List α → σ × List α) :
    ∀ (s : σ) (cs : List (List α)),
      ((batchWriteGroups step s cs).2).flatten.length ≤ 6 * cs.length := by
  intro s cs
  induction cs generalizing s with
  | nil => simp [batchWriteGroups]
  | cons c cs ih =>
    have h1 := retryCalls_len step 5 (step s c).1 (step s c).2
    have h2 := ih (chunkCalls step s c).1
    simp only [batchWriteGroups, List.flatten_cons, List.length_append, chunkCalls,
      List.length_cons]
    simp only [chunkCalls] at h2
    omega

theorem flatten_ge {α : Type} :
    ∀ (groups : List (List α)), (∀ g ∈ groups, g ≠ []) →
      groups.length ≤ groups.flatten.length := by
  intro groups
  induction groups with
  | nil => intro _; simp
  | cons g gs ih =>
    intro hne
    have h1 : 1 ≤ g.length := by
      have := hne g (by simp)
      cases g with
      | nil => exact absurd rfl this
      | cons a as => simp
    have h2 := ih (fun x hx => hne x (by simp [hx]))
    simp only [List.flatten_cons, List.length_append, List.length_cons]
    omega

/-- Claim C5: `batch_write` chunks its input into consecutive groups of at
most 25 (all but possibly the last exactly 25, and together exactly the
input), issues one initial call per group (the group's first call is the
chunk itself), never lets any call carry more than 25 items (given that the
store only ever reports a sub-collection of the submitted items as
unprocessed), and for 26 records issues at least two calls. -/
theorem c5_batch_partition {σ α : Type} (step : σ → List α → σ × List α) (s0 : σ)
    (items : List α) (hstep : ∀ s u, ((step s u).2).length ≤ u.length) :
    (pyChunks items).flatten = items
  ∧ (∀ c ∈ pyChunks items, c.length ≤ 25)
  ∧ (∀ c ∈ (pyChunks items).dropLast, c.length = 25)
  ∧ (bwGroups step s0 items).map (fun g => g.head?) = (pyChunks items).map some
  ∧ (∀ call ∈ bwCalls step s0 items, call.length ≤ 25)
  ∧ (items.length = 26 → 2 ≤ (bwCalls step s0 items).length) := by
  refine ⟨chunksAux_flatten _ _ le_rfl, fun c hc => chunksAux_sizes _ _ c hc,
    chunksAux_dropLast _ _ le_rfl, bwGroups_heads step s0 (pyChunks items), ?_, ?_⟩
  · intro call hc
    exact bwGroups_sizes step hstep s0 (pyChunks items)
      (fun c h => chunksAux_sizes _ _ c h) call hc
  · intro h26
    have hlen : (pyChunks items).length = 2 := by
      show (chunksAux items.length items).length = 2
      rw [chunksAux_length items.length items le_rfl, h26]
    have hne := bwGroups_ne_nil step s0 (pyChunks items)
    have hge := flatten_ge ((batchWriteGroups step s0 (pyChunks items)).2) hne
    have hleng := bwGroups_len step s0 (pyChunks items)
    show 2 ≤ ((batchWriteGroups step s0 (pyChunks items)).2).flatten.length
    omega

/-- Witness for C5 with a concrete store and 26 items. -/
theorem c5_batch_partition_witness :
    2 ≤ (bwCalls (fun (s : Unit) (_ : List Nat) => (s, [])) () (List.replicate 26 0)).length :=
  (c5_batch_partition (fun s _ => (s, [])) () (List.replicate 26 0)
    (fun s u => by simp)).2.2.2.2.2 (by decide)

/-- Claim C6: `batch_write` is bounded — whatever the store responds, an
input of `n` records issues at most `6 * ceil(n / 25)` batch-write calls
(each 25-chunk costs one initial call plus at most five retries). -/
theorem c6_call_bound {σ α : Type} (step : σ → List α → σ × List α) (s0 : σ)
    (items : List α) :
    (bwCalls step s0 items).length ≤ 6 * ((items.length + 24) / 25) := by
  have h1 := bwGroups_calls_bound step s0 (pyChunks items)
  have h2 : (pyChunks items).length = (items.length + 24) / 25 :=
    chunksAux_length items.length items le_rfl
  show ((batchWriteGroups step s0 (pyChunks items)).2).flatten.length ≤ _
  omega

/-- Claim C9 counterexample: on `GET /` with only `region=NE` supplied — a
recognized parameter — the handler answers 400, not a 200 `(count, items)`
body. -/
theorem c9_counterexample :
    truthyOpt (qsGet evRegionRoot "region") = true
  ∧ (searchHandler storeZero evRegionRoot).1.status = 400
  ∧ isResults (searchHandler storeZero evRegionRoot).1 = false := by
  refine ⟨by decide, by decide, by decide⟩

/-- Claim C9 (amended): the handler returns a 200 `(count, items)` body iff
the acceptance condition holds — on `GET /`, a non-empty `institution`; on
every other method/path, a non-empty `institution`, `region` or `contains` —
and otherwise a 400 error body. -/
theorem c9_amended (store : SearchCall → Int × List String) (ev : SEvent) :
    ((searchHandler store ev).1.status = if acceptsCond ev then 200 else 400)
  ∧ (acceptsCond ev = true →
      ∃ n items, (searchHandler store ev).1.body = SBody.resultsB n items)
  ∧ (acceptsCond ev = false → ∃ m, (searchHandler store ev).1.body = SBody.errB m) := by
  cases hroot : (ev.method == "GET" && ev.rawPath == "/") <;>
    cases hinst : truthyOpt (qsGet ev "institution") <;>
    cases hreg : truthyOpt (qsGet ev "region") <;>
    cases hsub : truthyOpt (qsGet ev "contains") <;>
    simp [searchHandler, acceptsCond, hroot, hinst, hreg, hsub]

/-- Witness for C9 (amended): `GET /` with an institution yields a
`(count, items)` body. -/
theorem c9_amended_witness :
    ∃ n items, (searchHandler storeZero evInstRoot).1.body = SBody.resultsB n items :=
  (c9_amended storeZero evInstRoot).2.1 (by decide)

/-- Claim C10: the `limit` parameter reaches the store only on the `GET /`
path, where it defaults to 25 when absent or unparseable; the non-root
institution and region paths issue their queries with no limit at all. -/
theorem c10_limit_routing (store : SearchCall → Int × List String) (ev : SEvent) :
    ((ev.method == "GET" && ev.rawPath == "/") = true →
      truthyOpt (qsGet ev "institution") = true →
      (searchHandler store ev).2 =
        some (SearchCall.instQ ((qsGet ev "institution").getD "")
          (if truthyOpt (qsGet ev "date") then some ((qsGet ev "date").getD "") else none)
          (some ((pyIntOpt (qsGet ev "limit")).getD 25))))
  ∧ ((ev.method == "GET" && ev.rawPath == "/") = false →
      truthyOpt (qsGet ev "institution") = true →
      (searchHandler store ev).2 =
        some (SearchCall.instQ ((qsGet ev "institution").getD "")
          (if truthyOpt (qsGet ev "date") then some ((qsGet ev "date").getD "") else none)
          none))
  ∧ ((ev.method == "GET" && ev.rawPath == "/") = false →
      truthyOpt (qsGet ev "institution") = false →
      truthyOpt (qsGet ev "region") = true →
      (searchHandler store ev).2 =
        some (SearchCall.regionQ ((qsGet ev "region").getD "")
          (if truthyOpt (qsGet ev "date") then
            some ((qsGet ev "date").getD "") else none))) := by
  refine ⟨?_, ?_, ?_⟩
  · intro h1 h2
    simp [searchHandler, h1, h2]
  · intro h1 h2
    simp [searchHandler, h1, h2]
  · intro h1 h2 h3
    simp [searchHandler, h1, h2, h3]

/-- Witness for C10: a non-integer `limit` on `GET /` reaches the store as
25; a non-root institution query carries no limit. -/
theorem c10_limit_routing_witness :
    (searchHandler storeZero evLimitRoot).2 = some (SearchCall.instQ "Acme" none (some 25))
  ∧ (searchHandler storeZero evInstPath).2 = some (SearchCall.instQ "Acme" none none) :=
  ⟨(c10_limit_routing storeZero evLimitRoot).1 (by decide) (by decide),
   (c10_limit_routing storeZero evInstPath).2.1 (by decide) (by decide)⟩

/-! ## Model sanity checks: concrete evaluations of the embedding that match
the behaviour of the corresponding CPython primitives and source functions. -/

example : validateRow rowGood = (true, "") := by decide

example : validateRow rowNan = (true, "") := by decide

example : (transformRow idHash rowGood).transaction_amount = "100.00" := by decide

example : (transformRow idHash rowGood).institution_name = "Acme Bank" := by decide

example : (transformRow idHash rowGood).ssn_masked = "***-**-6789" := by decide

example : (transformRow idHash rowGood).email_masked = "j***@example.com" := by decide

example : amountShapeOk "100.00" = true := by decide

example : amountShapeOk "nan" = false := by decide

example : amountShapeOk "-0.00" = false := by decide

example : stripCsvAll "data.csv" = "data" := by decide

example : stripCsvAll "my.csv.backup.csv" = "my.backup" := by decide

example : lastSegment "uploads/data.csv" = "data.csv" := by decide

example : specStripExt "data.txt" = "data" := by decide

example : specStripExt "data" = "data" := by decide

example : curatedKey "curated/" "uploads/data.txt" = "curated/masked_data.txt.jsonl" := by decide

example : (searchHandler storeZero evRegionRoot).1.status = 400 := by decide

example :
    pyChunks (List.replicate 26 0) =
      [List.replicate 25 0, [0]] := by decide

example :
    (bwCalls (fun (s : Unit) (_ : List Nat) => (s, [])) () (List.replicate 26 0)).length = 2 := by
  decide

example : ssnMatch "123-45-6789" = true := by decide

example : ssnMatch "123456789" = false := by decide

example : ssnMatch "123-45-678" = false := by decide

example : emailMatch "jane@example.com" = true := by decide

example : emailMatch "a@b" = false := by decide

example : emailMatch "a@b.c" = true := by decide

example : emailMatch "@b.c" = false := by decide

example : emailMatch "a@.c" = false := by decide

example : emailMatch "a b@c.d" = false := by decide

example : isUUID "11111111-1111-1111-1111-111111111111" = true := by decide

example : isUUID "not-a-uuid" = false := by decide

example : isUUID "11111111111111111111111111111111" = true := by decide

example : isoDatetimeOk "2026-02-25T10:00:00" = true := by decide

example : isoDatetimeOk "2026-02-25T10:00:00Z" = true := by decide

example : isoDatetimeOk "2026-02-25" = true := by decide

example : isoDatetimeOk "not-a-date" = false := by decide

example : isoDatetimeOk "2026-02-30T10:00:00" = false := by decide

example : parseAmount "100" = some "100.00" := by decide

example : parseAmount "nan" = some "nan" := by decide

example : parseAmount "-5.00" = none := by decide

example : parseAmount "12.345" = some "12.34" := by decide

example : parseAmount "12.335" = some "12.34" := by decide

example : parseAmount "" = none := by decide

example : parseAmount "inf" = some "inf" := by decide

example : parseAmount "-0.0" = some "-0.00" := by decide

example : parseAmount "1." = some "1.00" := by decide

example : parseAmount ".5" = some "0.50" := by decide

example : parseAmount "." = none := by decide

example : parseAmount "1e2" = some "100.00" := by decide

example : parseAmount "1e-2" = some "0.01" := by decide

example : parseAmount "1x" = none := by decide

example : parseDate "2024-01-15" = some "2024-01-15" := by decide

example : parseDate "2024-1-5" = some "2024-01-05" := by decide

example : parseDate "2024-02-30" = none := by decide

example : parseDate "2024-02-29" = some "2024-02-29" := by decide

example : parseDate "1900-02-29" = none := by decide

example : parseDate "999-01-01" = none := by decide

example : parseDate "2024-13-01" = none := by decide

example : parseDate "2024-01-15x" = none := by decide

example : maskEmail "jane@example.com" = "j***@example.com" := by decide

example : maskEmail "nope" = "***" := by decide

example : maskEmail "@d.com" = "***@d.com" := by decide

example : maskSsn "123-45-6789" = "***-**-6789" := by decide

example : maskSsn "" = "***-**-" := by decide

end FinDisclosures
